import Mathlib

/-!
Shallow embedding of the Doom-fire kernel shared by the three renderer
variants of this repository:

* `fire-gfx.c` (`init_palette`, `update_fire`) and the 3D-cube variant,
  whose kernel is line-for-line identical — called the *gfx* variant below;
* the terminal renderer (`init_palette`, `update_fire` of the raw-terminal
  file) — called the *term* variant below.

The C heat buffer `fire_buffer` (a `uint8_t` array) is modelled as a flat
`List Nat` in row-major order: cell `grid[y][x]` lives at index
`y * width + x`.  `rand()` is modelled as a stream `rng : Nat → Nat` of
successive return values together with a position counter threaded through
the update; a state is the pair `(buffer, position)`.  The C sources fix
`width`/`height` as compile-time constants (320×200, 128×128, or the
terminal size); the embedding takes them as parameters and every theorem
holds at each instantiation.
-/

namespace Fire

/-- One column of the seed phase (phase A), identical in all three variants:
`if ((rand() % 100) < 60) buf[last+x] = 255 - (rand() % 50); else if
(buf[last+x] > 10) buf[last+x] -= 5;` where `last = (height-1)*width`. -/
def seedStep (width height : Nat) (rng : Nat → Nat) (s : List Nat × Nat)
    (x : Nat) : List Nat × Nat :=
  if rng s.2 % 100 < 60 then
    (s.1.set ((height - 1) * width + x) (255 - rng (s.2 + 1) % 50), s.2 + 2)
  else if 10 < s.1.getD ((height - 1) * width + x) 0 then
    (s.1.set ((height - 1) * width + x)
      (s.1.getD ((height - 1) * width + x) 0 - 5), s.2 + 1)
  else
    (s.1, s.2 + 1)

/-- The whole seed phase: the bottom-row loop `for (x = 0; x < width; x++)`. -/
def seedRow (width height : Nat) (rng : Nat → Nat) (s : List Nat × Nat) :
    List Nat × Nat :=
  (List.range width).foldl (seedStep width height rng) s

/-- Destination column of a propagation write in the gfx variant.
C: `dst_x = x - r3 + 1; if (dst_x < 0) dst_x = 0; if (dst_x >= width)
dst_x = width - 1;` — the truncated `Nat` subtraction `x + 1 - r3`
realizes the lower clamp exactly (for `r3 ≤ 2` it equals
`max 0 (x + 1 - r3)` over the integers). -/
def dstX (width x r3 : Nat) : Nat :=
  if width ≤ x + 1 - r3 then width - 1 else x + 1 - r3

/-- One cell of the gfx propagation phase: read `val` from the cell directly
below; if zero, write 0 in place (no `rand()` consumed); otherwise draw
`decay = rand() % 3`, then the drift `rand() % 3`, and write
`val - decay` (clamped at 0 by `Nat` subtraction) at the clamped
destination column. -/
def propStepGfx (width : Nat) (rng : Nat → Nat) (y : Nat)
    (s : List Nat × Nat) (x : Nat) : List Nat × Nat :=
  if s.1.getD ((y + 1) * width + x) 0 = 0 then
    (s.1.set (y * width + x) 0, s.2)
  else
    (s.1.set (y * width + dstX width x (rng (s.2 + 1) % 3))
      (s.1.getD ((y + 1) * width + x) 0 - rng s.2 % 3), s.2 + 2)

/-- One row of the gfx propagation phase (inner `x` loop). -/
def propRowGfx (width : Nat) (rng : Nat → Nat) (y : Nat)
    (s : List Nat × Nat) : List Nat × Nat :=
  (List.range width).foldl (propStepGfx width rng y) s

/-- The gfx propagation phase over an explicit list of rows. -/
def propRowsGfx (width : Nat) (rng : Nat → Nat) (rows : List Nat)
    (s : List Nat × Nat) : List Nat × Nat :=
  rows.foldl (fun t y => propRowGfx width rng y t) s

/-- A full gfx `update_fire` call (phases A and B; the pixel-mapping phase C
does not touch the heat buffer): seed the bottom row, then propagate rows
`y = 0 .. height-2` in increasing order, in place. -/
def updateGfx (width height : Nat) (rng : Nat → Nat) (s : List Nat × Nat) :
    List Nat × Nat :=
  propRowsGfx width rng (List.range (height - 1)) (seedRow width height rng s)

/-- One cell of the term-variant propagation phase.  Differences from gfx:
`decay = rand() % (COOLING_MAX + 1)` with `COOLING_MAX = 3` is drawn
*before* the zero test (so one `rand()` is consumed even for a zero cell),
and an out-of-range destination (`dst_x < 0 || dst_x >= width`) skips the
write instead of clamping. -/
def propStepTerm (width : Nat) (rng : Nat → Nat) (y : Nat)
    (s : List Nat × Nat) (x : Nat) : List Nat × Nat :=
  if 0 < s.1.getD ((y + 1) * width + x) 0 then
    if x + 1 < rng (s.2 + 1) % 3 then (s.1, s.2 + 2)
    else if x + 1 - rng (s.2 + 1) % 3 < width then
      (s.1.set (y * width + (x + 1 - rng (s.2 + 1) % 3))
        (s.1.getD ((y + 1) * width + x) 0 - rng s.2 % 4), s.2 + 2)
    else (s.1, s.2 + 2)
  else
    (s.1.set (y * width + x) 0, s.2 + 1)

/-- One row of the term-variant propagation phase. -/
def propRowTerm (width : Nat) (rng : Nat → Nat) (y : Nat)
    (s : List Nat × Nat) : List Nat × Nat :=
  (List.range width).foldl (propStepTerm width rng y) s

/-- A full term-variant `update_fire` call (seed, then propagate rows
`0 .. height-2` in increasing order). -/
def updateTerm (width height : Nat) (rng : Nat → Nat) (s : List Nat × Nat) :
    List Nat × Nat :=
  (List.range (height - 1)).foldl (fun t y => propRowTerm width rng y t)
    (seedRow width height rng s)

/-- The propagation order asserted by the spec reading under examination:
rows processed bottom-up (`height-2` down to `0`), so that row `y+1` has
already been updated by this call when row `y` reads it.  This is the
spec-side definition used for the refinement comparison; the source
processes rows top-down. -/
def updateGfxUpdatedBelow (width height : Nat) (rng : Nat → Nat)
    (s : List Nat × Nat) : List Nat × Nat :=
  propRowsGfx width rng (List.range (height - 1)).reverse
    (seedRow width height rng s)

/-- One cell of a snapshot-reading propagation: identical to `propStepGfx`
except that the below-cell value is read from the fixed buffer `snap`
instead of the evolving buffer. -/
def propStepSnap (width : Nat) (rng : Nat → Nat) (snap : List Nat) (y : Nat)
    (s : List Nat × Nat) (x : Nat) : List Nat × Nat :=
  if snap.getD ((y + 1) * width + x) 0 = 0 then
    (s.1.set (y * width + x) 0, s.2)
  else
    (s.1.set (y * width + dstX width x (rng (s.2 + 1) % 3))
      (snap.getD ((y + 1) * width + x) 0 - rng s.2 % 3), s.2 + 2)

/-- Gfx update where every propagation read comes from a snapshot of the
buffer taken right after the seed phase. -/
def updateGfxSnap (width height : Nat) (rng : Nat → Nat)
    (s : List Nat × Nat) : List Nat × Nat :=
  let t := seedRow width height rng s
  (List.range (height - 1)).foldl
    (fun u y => (List.range width).foldl (propStepSnap width rng t.1 y) u) t

/-- The `init_palette` entry for index `i` as an RGB triple (identical in all
three variants): four linear ramps black→red→orange→yellow→white. -/
def paletteRGB (i : Nat) : Nat × Nat × Nat :=
  if i < 64 then (i * 4, 0, 0)
  else if i < 128 then (255, (i - 64) * 4, 0)
  else if i < 192 then (255, 255, (i - 128) * 4)
  else (255, 255, 255)

/-- The palette built by the `for (i = 0; i < 256; i++)` loop. -/
def paletteList : List (Nat × Nat × Nat) :=
  (List.range 256).map paletteRGB

/-- Brightness of a palette entry: the sum `R + G + B`. -/
def sumRGB (c : Nat × Nat × Nat) : Nat :=
  c.1 + c.2.1 + c.2.2

/-- Modelled from the spec: the source repository has no `create`
operation — the terminal variant's `resize_buffers` allocates zeroed
buffers (`calloc(width * height, 1)`) without validating dimensions.
The only core-level error of the specified FireField construction
contract. -/
inductive CreateError where
  | invalidDimensions
deriving DecidableEq

/-- Modelled from the spec: `create(width, height)` fails with
`InvalidDimensions` iff `width ≤ 0` or `height ≤ 0`, and otherwise yields
a fully extinguished (all-zero) heat grid, matching the `calloc`
zero-initialization in `resize_buffers`. -/
def create (width height : Int) : Except CreateError (List Nat) :=
  if width ≤ 0 ∨ height ≤ 0 then .error .invalidDimensions
  else .ok (List.replicate (width.toNat * height.toNat) 0)

/-! ### Helper lemmas -/

theorem getD_set_self {l : List Nat} {j v : Nat} (h : j < l.length) :
    (l.set j v).getD j 0 = v := by
  simp [List.getD_eq_getElem?_getD, List.getElem?_set_self h]

theorem getD_set_ne {l : List Nat} (i : Nat) {j v : Nat} (h : j ≠ i) :
    (l.set j v).getD i 0 = l.getD i 0 := by
  simp [List.getD_eq_getElem?_getD, List.getElem?_set_ne h]

theorem foldl_invariant {α β : Type} (P : α → Prop) (f : α → β → α)
    (l : List β) (s : α) (h : P s) (hf : ∀ a b, b ∈ l → P a → P (f a b)) :
    P (l.foldl f s) := by
  induction l generalizing s with
  | nil => exact h
  | cons b t ih =>
      exact ih (f s b) (hf s b (by simp) h)
        (fun a c hc ha => hf a c (by simp [hc]) ha)

theorem dstX_lt {width x r3 : Nat} (hw : 0 < width) : dstX width x r3 < width := by
  unfold dstX; split <;> omega

theorem dstX_ge {width x r3 : Nat} (hx : x < width) (h3 : r3 < 3) :
    x ≤ dstX width x r3 + 1 := by
  unfold dstX; split <;> omega

theorem dstX_le {width x r3 : Nat} : dstX width x r3 ≤ x + 1 := by
  unfold dstX; split <;> omega

/-- The seed phase never touches an index below the source row. -/
theorem seedStep_getD_of_lt {width height : Nat} {rng : Nat → Nat}
    {s : List Nat × Nat} {x i : Nat} (hi : i < (height - 1) * width) :
    (seedStep width height rng s x).1.getD i 0 = s.1.getD i 0 := by
  unfold seedStep
  have hne : (height - 1) * width + x ≠ i := by omega
  split
  · exact getD_set_ne i hne
  · split
    · exact getD_set_ne i hne
    · rfl

theorem seedRow_getD_of_lt {width height : Nat} {rng : Nat → Nat}
    {s : List Nat × Nat} {i : Nat} (hi : i < (height - 1) * width) :
    (seedRow width height rng s).1.getD i 0 = s.1.getD i 0 := by
  unfold seedRow
  exact foldl_invariant (fun t : List Nat × Nat => t.1.getD i 0 = s.1.getD i 0) _ _ s rfl
    (fun a b _ ha => (seedStep_getD_of_lt hi).trans ha)

/-- A gfx propagation step at row `y` (column `x < width`) writes only into
row `y`: any index outside `[y*width, (y+1)*width)` is untouched. -/
theorem propStepGfx_getD_outside {width : Nat} {rng : Nat → Nat}
    {y : Nat} {s : List Nat × Nat} {x i : Nat} (hx : x < width)
    (hi : i < y * width ∨ (y + 1) * width ≤ i) :
    (propStepGfx width rng y s x).1.getD i 0 = s.1.getD i 0 := by
  have e : (y + 1) * width = y * width + width := by ring
  unfold propStepGfx
  split
  · exact getD_set_ne i (by omega)
  · have hd := @dstX_lt width x (rng (s.2 + 1) % 3) (by omega)
    exact getD_set_ne i (by omega)

theorem propRowGfx_getD_outside {width : Nat} {rng : Nat → Nat}
    {y : Nat} {s : List Nat × Nat} {i : Nat}
    (hi : i < y * width ∨ (y + 1) * width ≤ i) :
    (propRowGfx width rng y s).1.getD i 0 = s.1.getD i 0 := by
  unfold propRowGfx
  exact foldl_invariant (fun t : List Nat × Nat => t.1.getD i 0 = s.1.getD i 0) _ _ s rfl
    (fun a b hb ha =>
      (propStepGfx_getD_outside (List.mem_range.mp hb) hi).trans ha)

/-- Folding the gfx propagation over any list of rows `< k` leaves every
index at or above `k * width` untouched. -/
theorem propRowsGfx_getD_of_ge {width : Nat} {rng : Nat → Nat}
    {rows : List Nat} {s : List Nat × Nat} {k i : Nat}
    (hrows : ∀ y ∈ rows, y < k) (hi : k * width ≤ i) :
    (propRowsGfx width rng rows s).1.getD i 0 = s.1.getD i 0 := by
  unfold propRowsGfx
  refine foldl_invariant (fun t : List Nat × Nat => t.1.getD i 0 = s.1.getD i 0) _ _ s rfl
    (fun a y hy ha => ?_)
  have hyk : y < k := hrows y hy
  have e : (y + 1) * width ≤ k * width := Nat.mul_le_mul_right width hyk
  exact (propRowGfx_getD_outside (Or.inr (by omega))).trans ha

/-- All buffer updates preserve the buffer length. -/
theorem updateGfx_length {width height : Nat} {rng : Nat → Nat}
    {s : List Nat × Nat} :
    (updateGfx width height rng s).1.length = s.1.length := by
  unfold updateGfx propRowsGfx
  refine foldl_invariant (fun t : List Nat × Nat => t.1.length = s.1.length) _ _ _ ?_
    (fun a y _ ha => ?_)
  · unfold seedRow
    refine foldl_invariant (fun t : List Nat × Nat => t.1.length = s.1.length) _ _ _ rfl
      (fun a x _ ha => ?_)
    unfold seedStep
    split
    · simpa using ha
    · split
      · simpa using ha
      · exact ha
  · unfold propRowGfx
    refine foldl_invariant (fun t : List Nat × Nat => t.1.length = s.1.length) _ _ _ ha
      (fun b x _ hb => ?_)
    unfold propStepGfx
    split
    · simpa using hb
    · simpa using hb

/-- Writing with `set` keeps every cell of a `≤ 255` buffer in range when the written
value is in range. -/
theorem getD_set_bound {l : List Nat} {j v : Nat}
    (hl : ∀ i, l.getD i 0 ≤ 255) (hv : v ≤ 255) :
    ∀ i, (l.set j v).getD i 0 ≤ 255 := by
  intro i
  rcases eq_or_ne j i with rfl | hne
  · rcases Nat.lt_or_ge j l.length with hlen | hlen
    · rw [getD_set_self hlen]; exact hv
    · rw [List.set_eq_of_length_le hlen]; exact hl j
  · rw [getD_set_ne i hne]; exact hl i

/-- A fold of gfx propagation steps at row `y` over columns `< width`
leaves every index outside row `y` untouched. -/
theorem propColsGfx_getD_outside {width y i : Nat} {rng : Nat → Nat}
    {s : List Nat × Nat} (cols : List Nat) (hcols : ∀ c ∈ cols, c < width)
    (hi : i < y * width ∨ (y + 1) * width ≤ i) :
    (cols.foldl (propStepGfx width rng y) s).1.getD i 0 = s.1.getD i 0 :=
  foldl_invariant (fun t : List Nat × Nat => t.1.getD i 0 = s.1.getD i 0)
    _ _ s rfl
    (fun a b hb ha => (propStepGfx_getD_outside (hcols b hb) hi).trans ha)

/-- A fold of gfx propagation steps preserves the buffer length. -/
theorem propColsGfx_length {width y : Nat} {rng : Nat → Nat}
    {s : List Nat × Nat} (cols : List Nat) :
    (cols.foldl (propStepGfx width rng y) s).1.length = s.1.length := by
  refine foldl_invariant (fun t : List Nat × Nat => t.1.length = s.1.length)
    _ _ s rfl (fun a b _ ha => ?_)
  unfold propStepGfx
  split
  · simpa using ha
  · simpa using ha

/-- The seed phase preserves the buffer length. -/
theorem seedRow_length {width height : Nat} {rng : Nat → Nat}
    {s : List Nat × Nat} :
    (seedRow width height rng s).1.length = s.1.length := by
  unfold seedRow
  refine foldl_invariant (fun t : List Nat × Nat => t.1.length = s.1.length)
    _ _ s rfl (fun a b _ ha => ?_)
  unfold seedStep
  split
  · simpa using ha
  · split
    · simpa using ha
    · exact ha

theorem propRowsGfx_append {width : Nat} {rng : Nat → Nat}
    (l1 l2 : List Nat) (s : List Nat × Nat) :
    propRowsGfx width rng (l1 ++ l2) s =
      propRowsGfx width rng l2 (propRowsGfx width rng l1 s) := by
  unfold propRowsGfx
  exact List.foldl_append _ _ l1 l2

/-- Folding the gfx propagation over rows `≥ m` leaves every index below
`m * width` untouched. -/
theorem propRowsGfx_getD_of_lt {width i : Nat} {rng : Nat → Nat}
    {rows : List Nat} {s : List Nat × Nat} (m : Nat)
    (hrows : ∀ j ∈ rows, m ≤ j) (hi : i < m * width) :
    (propRowsGfx width rng rows s).1.getD i 0 = s.1.getD i 0 := by
  unfold propRowsGfx
  refine foldl_invariant (fun t : List Nat × Nat => t.1.getD i 0 = s.1.getD i 0)
    _ _ s rfl (fun a y hy ha => ?_)
  have e : m * width ≤ y * width := Nat.mul_le_mul_right width (hrows y hy)
  exact (propRowGfx_getD_outside (Or.inl (by omega))).trans ha

/-! ### Claim theorems -/

/-- Claim C8: the palette has exactly 256 entries determined solely by the
index; `Palette[0] = (0,0,0)`, `Palette[64] = (255,0,0)`,
`Palette[128] = (255,255,0)`, `Palette[255] = (255,255,255)`; and the
entries follow the four linear ramps `R = i*4` on `[0,64)`,
`G = (i-64)*4` on `[64,128)`, `B = (i-128)*4` on `[128,192)` and constant
white on `[192,256)`. -/
theorem palette_boundaries_and_ramps :
    paletteList.length = 256 ∧
    (∀ i : Fin 256, paletteList.getD i.val (0, 0, 0) = paletteRGB i.val) ∧
    paletteList.getD 0 (0, 0, 0) = (0, 0, 0) ∧
    paletteList.getD 64 (0, 0, 0) = (255, 0, 0) ∧
    paletteList.getD 128 (0, 0, 0) = (255, 255, 0) ∧
    paletteList.getD 255 (0, 0, 0) = (255, 255, 255) ∧
    (∀ i : Fin 64, paletteRGB i.val = (i.val * 4, 0, 0)) ∧
    (∀ i : Fin 64, paletteRGB (64 + i.val) = (255, i.val * 4, 0)) ∧
    (∀ i : Fin 64, paletteRGB (128 + i.val) = (255, 255, i.val * 4)) ∧
    (∀ i : Fin 64, paletteRGB (192 + i.val) = (255, 255, 255)) := by
  set_option maxRecDepth 4000 in decide

/-- Claim C9: palette brightness (the sum `R+G+B`) is monotone in the index:
for `i < j ≤ 255`, `sumRGB (Palette i) ≤ sumRGB (Palette j)`. -/
theorem palette_monotone_brightness (i j : Nat) (hij : i < j) (hj : j ≤ 255) :
    sumRGB (paletteRGB i) ≤ sumRGB (paletteRGB j) := by
  unfold paletteRGB sumRGB
  split_ifs <;> simp <;> omega

/-- Witness for C9 at `i = 3 < j = 200`. -/
theorem palette_monotone_brightness_witness :
    sumRGB (paletteRGB 3) ≤ sumRGB (paletteRGB 200) :=
  palette_monotone_brightness 3 200 (by decide) (by decide)

/-- Claim C6: `create(width, height)` fails with `InvalidDimensions` exactly
when `width ≤ 0` or `height ≤ 0`; for positive dimensions it succeeds with
an all-zero grid; and `InvalidDimensions` is the only core-level error. -/
theorem create_contract (w h : Int) :
    (create w h = .error .invalidDimensions ↔ w ≤ 0 ∨ h ≤ 0) ∧
    (0 < w → 0 < h → ∃ g, create w h = .ok g ∧
      g.length = w.toNat * h.toNat ∧ ∀ i, g.getD i 0 = 0) ∧
    (∀ e : CreateError, e = .invalidDimensions) := by
  refine ⟨?_, ?_, fun e => by cases e; rfl⟩
  · constructor
    · intro he
      by_contra hc
      push_neg at hc
      unfold create at he
      rw [if_neg (by push_neg; omega)] at he
      exact Except.noConfusion he
    · intro hcond
      unfold create
      rw [if_pos hcond]
  · intro hw hh
    unfold create
    rw [if_neg (by push_neg; omega)]
    refine ⟨_, rfl, List.length_replicate _ _, fun i => ?_⟩
    rw [List.getD_eq_getElem?_getD, List.getElem?_replicate]
    split <;> rfl

/-- Witness for C6: `create 10 10` succeeds with a 100-cell all-zero grid. -/
theorem create_contract_witness :
    ∃ g, create 10 10 = .ok g ∧
      g.length = (10 : Int).toNat * (10 : Int).toNat ∧ ∀ i, g.getD i 0 = 0 :=
  (create_contract 10 10).2.1 (by norm_num) (by norm_num)

/-- At width 1 the gfx destination column is forced to 0, so a propagation
step from a nonzero below cell `v` writes `v - rand() % 3` there. -/
theorem propStepGfx_width1 (rng : Nat → Nat) (pos v : Nat) (hv : v ≠ 0) :
    (propStepGfx 1 rng 0 ([0, v], pos) 0).1 = [v - rng pos % 3, v] := by
  have hd : dstX 1 0 (rng (pos + 1) % 3) = 0 := by
    unfold dstX; split <;> omega
  unfold propStepGfx
  dsimp only
  rw [show ((0 + 1) * 1 + 0 : Nat) = 1 by norm_num]
  rw [show ([0, v] : List Nat).getD 1 0 = v from rfl]
  rw [if_neg hv, hd]
  rfl

/-- Claim C3 counterexample: in the gfx variant the propagation decay is
`rand() % 3`, whose values are `{0, 1, 2}` — a decrement of exactly 3 never
occurs for any value of the random source.  With the below cell at 100 and
width 1 (so the destination column is forced to 0), no random stream makes
the propagation write 97. -/
theorem cooling_never_three_gfx :
    ¬ ∃ (rng : Nat → Nat) (pos : Nat),
      (propStepGfx 1 rng 0 ([0, 100], pos) 0).1 = [97, 100] := by
  rintro ⟨rng, pos, h⟩
  have hm : rng pos % 3 < 3 := Nat.mod_lt _ (by norm_num)
  rw [propStepGfx_width1 rng pos 100 (by norm_num), List.cons.injEq] at h
  omega

/-- Claim C3 amended: the decay drawn for a nonzero cell is `rand() % 3`
(values 0–2, i.e. inclusive `[0, COOLING_MAX]` with `COOLING_MAX = 2`) in
the gfx/cube variants, and `rand() % (COOLING_MAX+1)` with
`COOLING_MAX = 3` (values 0–3, a decrement of exactly 3 attainable) in the
terminal variant. -/
theorem cooling_ranges :
    (∀ (rng : Nat → Nat) (pos v : Nat), v ≠ 0 →
      (propStepGfx 1 rng 0 ([0, v], pos) 0).1 = [v - rng pos % 3, v] ∧
      rng pos % 3 < 3) ∧
    (∀ r : Nat, r % 4 < 4) ∧
    ((propStepTerm 3 (fun _ => 3) 0 ([0, 0, 0, 0, 100, 0], 0) 1).1 =
      [0, 0, 97, 0, 100, 0] ∧ 100 - 97 = 3) := by
  refine ⟨?_, fun r => Nat.mod_lt _ (by norm_num), by decide, by norm_num⟩
  intro rng pos v hv
  exact ⟨propStepGfx_width1 rng pos v hv, Nat.mod_lt _ (by norm_num)⟩

/-- Witness for C3 amended, at `v = 100` and a constant-5 random stream
(decay `5 % 3 = 2`). -/
theorem cooling_ranges_witness :
    (propStepGfx 1 (fun _ => 5) 0 ([0, 100], 0) 0).1 =
      [100 - (fun _ : Nat => 5) 0 % 3, 100] ∧ (fun _ : Nat => 5) 0 % 3 < 3 :=
  cooling_ranges.1 (fun _ => 5) 0 100 (by norm_num)

/-- Claim C2 counterexample: in the terminal variant an out-of-range drifted
destination skips the write instead of clamping it.  Width 1, height 2:
after seeding, the source cell holds 250 (nonzero), the drawn drift is
`+1` (`rand() % 3 = 0`, `dst_x = 1 ≥ width`), so nothing is written to
row 0 — the cell keeps its stale value 200, not the claimed clamped write
`max(0, 250 - 0) = 250`. -/
theorem propagation_skipped_at_edge_term :
    (updateTerm 1 2 (fun i => if i = 0 then 70 else 0) ([200, 255], 0)).1.getD 1 0
        = 250 ∧
    (updateTerm 1 2 (fun i => if i = 0 then 70 else 0) ([200, 255], 0)).1.getD 0 0
        = 200 ∧
    (200 : Nat) ≠ 250 := by
  refine ⟨by decide, by decide, by decide⟩

/-- Claim C2 amended: in the gfx/cube variants, every nonzero below-cell
produces a write of `max(0, val - d)` whose destination is exactly
`clamp(x + k, 0, width-1)` with `k = 1 - u(0,3) ∈ {-1,0,+1}`, never
outside the grid; in the terminal variant the write is instead skipped
whenever `x + k` falls outside `[0, width-1]`. -/
theorem propagation_write_policy :
    (∀ (width : Nat) (rng : Nat → Nat) (y x : Nat) (buf : List Nat) (pos : Nat),
      x < width → buf.getD ((y + 1) * width + x) 0 ≠ 0 →
      propStepGfx width rng y (buf, pos) x =
        (buf.set (y * width + dstX width x (rng (pos + 1) % 3))
          (buf.getD ((y + 1) * width + x) 0 - rng pos % 3), pos + 2) ∧
      dstX width x (rng (pos + 1) % 3) < width) ∧
    (∀ (width x r : Nat), 0 < width → x < width →
      (dstX width x (r % 3) : Int) =
        max 0 (min ((width : Int) - 1) ((x : Int) + (1 - ((r % 3 : Nat) : Int))))) ∧
    (∀ (width : Nat) (rng : Nat → Nat) (y x : Nat) (buf : List Nat) (pos : Nat),
      0 < buf.getD ((y + 1) * width + x) 0 →
      (x + 1 < rng (pos + 1) % 3 ∨ width ≤ x + 1 - rng (pos + 1) % 3) →
      propStepTerm width rng y (buf, pos) x = (buf, pos + 2)) := by
  refine ⟨?_, ?_, ?_⟩
  · intro width rng y x buf pos hx hv
    refine ⟨?_, dstX_lt (by omega)⟩
    unfold propStepGfx
    rw [if_neg hv]
  · intro width x r hw hx
    have h3 : r % 3 < 3 := Nat.mod_lt _ (by norm_num)
    unfold dstX
    split <;> push_cast <;> omega
  · intro width rng y x buf pos hv hcond
    unfold propStepTerm
    dsimp only
    rw [if_pos hv]
    split
    · rfl
    · rw [if_neg (by omega)]

/-- Witness for C2 amended: a concrete always-written clamped step
(width 2, below value 5, drift drawn 0). -/
theorem propagation_write_policy_witness :
    propStepGfx 2 (fun _ => 0) 0 ([0, 0, 5, 0], 0) 0 =
      (([0, 0, 5, 0] : List Nat).set
        (0 * 2 + dstX 2 0 ((fun _ : Nat => 0) (0 + 1) % 3))
        (([0, 0, 5, 0] : List Nat).getD ((0 + 1) * 2 + 0) 0 - (fun _ : Nat => 0) 0 % 3),
        0 + 2) ∧
    dstX 2 0 ((fun _ : Nat => 0) (0 + 1) % 3) < 2 :=
  propagation_write_policy.1 2 (fun _ => 0) 0 0 [0, 0, 5, 0] 0 (by norm_num)
    (by decide)

/-- Claim C10: a propagation write from source column `c` lands only in
`{c-1, c, c+1}` (clamping included), so `grid[y][x]` is written only when
some column in `{x-1, x, x+1}` targets it; and on a concrete 3×3 frame
where no drift targets column 1 of row 0, the cell keeps its stale value
200 across the call even though its below-neighbour holds 50 ≠ 0. -/
theorem stale_cells_persist :
    (∀ (width c x r : Nat), c < width → dstX width c (r % 3) = x →
      x ≤ c + 1 ∧ c ≤ x + 1) ∧
    ((updateGfx 3 3 (fun i => if i = 6 then 71 else 70)
        ([0, 200, 0, 9, 50, 9, 0, 0, 0], 0)).1.getD 1 0 = 200 ∧
      ([0, 200, 0, 9, 50, 9, 0, 0, 0] : List Nat).getD (1 * 3 + 1) 0 = 50 ∧
      (50 : Nat) ≠ 0) := by
  constructor
  · intro width c x r hc hd
    have h3 : r % 3 < 3 := Nat.mod_lt _ (by norm_num)
    unfold dstX at hd
    split at hd <;> omega
  · exact ⟨by decide, by decide, by decide⟩

/-- Witness for C10: column 2 with drift `1 % 3 = 1` targets column 2
itself (width 5), and the neighbourhood bound holds there. -/
theorem stale_cells_persist_witness : (2 : Nat) ≤ 2 + 1 ∧ (2 : Nat) ≤ 2 + 1 :=
  stale_cells_persist.1 5 2 2 1 (by norm_num) (by decide)

/-- Claim C7: seed-phase behaviour.  A sparking column is set to
`255 - u(0,50)`, which lies in `[205, 255]`; a non-sparking column is
decreased by exactly 5 when strictly above 10 and left unchanged
otherwise; and a 2×2 bottom row pre-seeded at 255 holds 250 after one
non-sparking `advance()`. -/
theorem seed_phase_behaviour :
    (∀ (width height : Nat) (rng : Nat → Nat) (buf : List Nat) (pos x : Nat),
      rng pos % 100 < 60 →
      seedStep width height rng (buf, pos) x =
        (buf.set ((height - 1) * width + x) (255 - rng (pos + 1) % 50),
          pos + 2) ∧
      205 ≤ 255 - rng (pos + 1) % 50 ∧ 255 - rng (pos + 1) % 50 ≤ 255) ∧
    (∀ (width height : Nat) (rng : Nat → Nat) (buf : List Nat) (pos x : Nat),
      ¬ rng pos % 100 < 60 →
      seedStep width height rng (buf, pos) x =
        ((if 10 < buf.getD ((height - 1) * width + x) 0 then
            buf.set ((height - 1) * width + x)
              (buf.getD ((height - 1) * width + x) 0 - 5)
          else buf), pos + 1)) ∧
    ((updateGfx 2 2 (fun _ => 70) ([0, 0, 255, 255], 0)).1 =
      [249, 249, 250, 250]) := by
  refine ⟨?_, ?_, by decide⟩
  · intro width height rng buf pos x h
    have h50 : rng (pos + 1) % 50 < 50 := Nat.mod_lt _ (by norm_num)
    refine ⟨?_, by omega, by omega⟩
    unfold seedStep
    dsimp only
    rw [if_pos h]
  · intro width height rng buf pos x h
    unfold seedStep
    dsimp only
    rw [if_neg h]
    by_cases h10 : 10 < buf.getD ((height - 1) * width + x) 0
    · rw [if_pos h10, if_pos h10]
    · rw [if_neg h10, if_neg h10]

/-- Witness for C7: a sparking seed step at a constant-0 random stream. -/
theorem seed_phase_behaviour_witness :
    seedStep 1 2 (fun _ => 0) ([0, 0], 0) 0 =
      (([0, 0] : List Nat).set ((2 - 1) * 1 + 0)
        (255 - (fun _ : Nat => 0) (0 + 1) % 50), 0 + 2) ∧
    205 ≤ 255 - (fun _ : Nat => 0) (0 + 1) % 50 ∧
    255 - (fun _ : Nat => 0) (0 + 1) % 50 ≤ 255 :=
  seed_phase_behaviour.1 1 2 (fun _ => 0) [0, 0] 0 0 (by norm_num)

/-- A seed step keeps every cell within 255. -/
theorem seedStep_bound {width height : Nat} {rng : Nat → Nat}
    {s : List Nat × Nat} {x : Nat} (hs : ∀ i, s.1.getD i 0 ≤ 255) :
    ∀ i, (seedStep width height rng s x).1.getD i 0 ≤ 255 := by
  unfold seedStep
  split
  · exact getD_set_bound hs (by omega)
  · split
    · exact getD_set_bound hs
        (by have := hs ((height - 1) * width + x); omega)
    · exact hs

/-- A gfx propagation step keeps every cell within 255. -/
theorem propStepGfx_bound {width y : Nat} {rng : Nat → Nat}
    {s : List Nat × Nat} {x : Nat} (hs : ∀ i, s.1.getD i 0 ≤ 255) :
    ∀ i, (propStepGfx width rng y s x).1.getD i 0 ≤ 255 := by
  unfold propStepGfx
  split
  · exact getD_set_bound hs (by omega)
  · exact getD_set_bound hs (by have := hs ((y + 1) * width + x); omega)

/-- A term-variant propagation step keeps every cell within 255. -/
theorem propStepTerm_bound {width y : Nat} {rng : Nat → Nat}
    {s : List Nat × Nat} {x : Nat} (hs : ∀ i, s.1.getD i 0 ≤ 255) :
    ∀ i, (propStepTerm width rng y s x).1.getD i 0 ≤ 255 := by
  unfold propStepTerm
  split
  · split
    · exact hs
    · split
      · exact getD_set_bound hs
          (by have := hs ((y + 1) * width + x); omega)
      · exact hs
  · exact getD_set_bound hs (by omega)

/-- Claim C5: range invariant.  Starting from any buffer whose cells all lie
in `[0, 255]`, after an `update_fire` call of either variant every cell
still lies in `[0, 255]` (the lower bound is inherent to the `Nat`
embedding of the `uint8_t` buffer: every arithmetic update is clamped, so
no value escapes). -/
theorem range_invariant (width height : Nat) (rng : Nat → Nat)
    (s : List Nat × Nat) (hs : ∀ i, s.1.getD i 0 ≤ 255) :
    (∀ i, (updateGfx width height rng s).1.getD i 0 ≤ 255) ∧
    (∀ i, (updateTerm width height rng s).1.getD i 0 ≤ 255) := by
  have hseed : ∀ i, (seedRow width height rng s).1.getD i 0 ≤ 255 := by
    unfold seedRow
    exact foldl_invariant (fun t : List Nat × Nat => ∀ i, t.1.getD i 0 ≤ 255)
      _ _ s hs (fun a b _ ha => seedStep_bound ha)
  constructor
  · unfold updateGfx propRowsGfx
    refine foldl_invariant (fun t : List Nat × Nat => ∀ i, t.1.getD i 0 ≤ 255)
      _ _ _ hseed (fun a y _ ha => ?_)
    unfold propRowGfx
    exact foldl_invariant (fun t : List Nat × Nat => ∀ i, t.1.getD i 0 ≤ 255)
      _ _ a ha (fun b x _ hb => propStepGfx_bound hb)
  · unfold updateTerm
    refine foldl_invariant (fun t : List Nat × Nat => ∀ i, t.1.getD i 0 ≤ 255)
      _ _ _ hseed (fun a y _ ha => ?_)
    unfold propRowTerm
    exact foldl_invariant (fun t : List Nat × Nat => ∀ i, t.1.getD i 0 ≤ 255)
      _ _ a ha (fun b x _ hb => propStepTerm_bound hb)

/-- Witness for C5 on an initially empty (all-default-zero) buffer. -/
theorem range_invariant_witness :
    (∀ i, (updateGfx 1 2 (fun _ => 0) ([], 0)).1.getD i 0 ≤ 255) ∧
    (∀ i, (updateTerm 1 2 (fun _ => 0) ([], 0)).1.getD i 0 ≤ 255) :=
  range_invariant 1 2 (fun _ => 0) ([], 0)
    (fun i => by simp [List.getD_eq_getElem?_getD])

theorem propRowGfx_length {width y : Nat} {rng : Nat → Nat}
    {s : List Nat × Nat} :
    (propRowGfx width rng y s).1.length = s.1.length :=
  propColsGfx_length (List.range width)

theorem propRowsGfx_length {width : Nat} {rng : Nat → Nat}
    {rows : List Nat} {s : List Nat × Nat} :
    (propRowsGfx width rng rows s).1.length = s.1.length := by
  unfold propRowsGfx
  exact foldl_invariant (fun t : List Nat × Nat => t.1.length = s.1.length)
    _ _ s rfl (fun a b _ ha => propRowGfx_length.trans ha)

/-- Once the in-place sweep of row `y` holds 0 at `(y, x)`, processing the
remaining columns `> x` cannot overwrite it, provided the below cell of
column `x+1` is zero: column `x+1` then writes 0 at `(y, x+1)`, and any
column `≥ x+2` writes at a destination `≥ x+1`.  The fold also leaves all
rows `≥ y+1` untouched. -/
theorem propColsGfx_keep_zero {width y x : Nat} {rng : Nat → Nat}
    (q : List Nat × Nat) (cols : List Nat)
    (hcols : ∀ c ∈ cols, x + 1 ≤ c ∧ c < width)
    (hz : q.1.getD (y * width + x) 0 = 0)
    (h1 : x + 1 < width → q.1.getD ((y + 1) * width + (x + 1)) 0 = 0) :
    (cols.foldl (propStepGfx width rng y) q).1.getD (y * width + x) 0 = 0 := by
  have e : (y + 1) * width = y * width + width := by ring
  refine (foldl_invariant
    (fun t : List Nat × Nat => t.1.getD (y * width + x) 0 = 0 ∧
      ∀ i, (y + 1) * width ≤ i → t.1.getD i 0 = q.1.getD i 0)
    _ cols q ⟨hz, fun i _ => rfl⟩ (fun a c hc ha => ?_)).1
  obtain ⟨hc1, hc2⟩ := hcols c hc
  obtain ⟨ha1, ha2⟩ := ha
  unfold propStepGfx
  split
  · exact ⟨(getD_set_ne _ (by omega)).trans ha1,
      fun i hi => (getD_set_ne _ (by omega)).trans (ha2 i hi)⟩
  · rename_i hval
    have hcx : c ≠ x + 1 := by
      intro hceq
      apply hval
      subst hceq
      exact (ha2 ((y + 1) * width + (x + 1)) (by omega)).trans
        (h1 (by omega))
    have h3 : rng (a.2 + 1) % 3 < 3 := Nat.mod_lt _ (by norm_num)
    have hlt := @dstX_lt width c (rng (a.2 + 1) % 3) (by omega)
    have hge := @dstX_ge width c (rng (a.2 + 1) % 3) hc2 h3
    exact ⟨(getD_set_ne _ (by omega)).trans ha1,
      fun i hi => (getD_set_ne _ (by omega)).trans (ha2 i hi)⟩

/-- In the gfx in-place sweep of row `y`, a zero below-cell at `(y+1, x)`
forces a zero at `(y, x)` at the end of the row, provided the below cell
of column `x+1` is also zero (vacuous when `x` is the last column). -/
theorem propRowGfx_writes_zero {width y x : Nat} {rng : Nat → Nat}
    {s : List Nat × Nat} (hx : x < width)
    (hlen : (y + 1) * width ≤ s.1.length)
    (h0 : s.1.getD ((y + 1) * width + x) 0 = 0)
    (h1 : x + 1 < width → s.1.getD ((y + 1) * width + (x + 1)) 0 = 0) :
    (propRowGfx width rng y s).1.getD (y * width + x) 0 = 0 := by
  have e : (y + 1) * width = y * width + width := by ring
  have hsplit : List.range width =
      (List.range x ++ [x]) ++
        (List.range (width - (x + 1))).map ((x + 1) + ·) := by
    rw [← List.range_succ, ← List.range_add]
    congr 1
    omega
  unfold propRowGfx
  rw [hsplit, List.foldl_append, List.foldl_append]
  simp only [List.foldl_cons, List.foldl_nil]
  set p := (List.range x).foldl (propStepGfx width rng y) s with hp
  have hpout : ∀ i, (y + 1) * width ≤ i → p.1.getD i 0 = s.1.getD i 0 :=
    fun i hi => propColsGfx_getD_outside (List.range x)
      (fun c hc => by have := List.mem_range.mp hc; omega) (Or.inr hi)
  have hplen : p.1.length = s.1.length := propColsGfx_length (List.range x)
  have hq : propStepGfx width rng y p x = (p.1.set (y * width + x) 0, p.2) := by
    unfold propStepGfx
    rw [if_pos ((hpout _ (by omega)).trans h0)]
  rw [hq]
  refine propColsGfx_keep_zero _ _ (fun c hc => ?_) ?_ (fun hxw => ?_)
  · obtain ⟨j, hj, rfl⟩ := List.mem_map.mp hc
    have := List.mem_range.mp hj
    omega
  · exact getD_set_self (by omega)
  · rw [getD_set_ne _ (by omega)]
    exact (hpout _ (by omega)).trans (h1 hxw)

/-- Claim C1 counterexample: two concrete `advance()` calls violate
extinguished-stays-extinguished as stated.  (a) Source-row respark: on a
1×2 all-zero grid, `grid[1][0] = 0` before the call, yet a sparking call
leaves `grid[0][0] = 255` (the seed phase reignites the source row before
propagation reads it).  (b) Drift overwrite on a non-source row (2×3 grid,
rows `[0,0] / [0,10] / [0,0]`, never-sparking stream): `grid[1][0] = 0`
before the call, column 1 of row 0 drifts its write (`50 → dst_x = 0`)
onto the freshly zeroed cell, leaving `grid[0][0] = 10 ≠ 0`. -/
theorem extinguished_counterexample :
    (([0, 0] : List Nat).getD (1 * 1 + 0) 0 = 0 ∧
      (updateGfx 1 2 (fun _ => 0) ([0, 0], 0)).1.getD (0 * 1 + 0) 0 = 255) ∧
    (([0, 0, 0, 10, 0, 0] : List Nat).getD (1 * 2 + 0) 0 = 0 ∧
      (updateGfx 2 3 (fun i => [70, 70, 0, 2].getD i 0)
        ([0, 0, 0, 10, 0, 0], 0)).1.getD (0 * 2 + 0) 0 = 10 ∧
      (10 : Nat) ≠ 0 ∧ (255 : Nat) ≠ 0) := by
  exact ⟨⟨by decide, by decide⟩, by decide, by decide, by decide, by decide⟩

/-- Claim C1 amended: extinguished-stays-extinguished holds for the gfx
propagation when the row below is not the source row (`y + 1 < height-1`,
so the seed phase cannot reignite it) and the below cell of the right
neighbour is also extinguished (so no later drifted write can reignite
`(y, x)`); without these two extra conditions the claim fails. -/
theorem extinguished_stays_amended (width height y x : Nat)
    (rng : Nat → Nat) (s : List Nat × Nat)
    (hlen : s.1.length = width * height) (hx : x < width)
    (hy : y + 1 < height - 1)
    (h0 : s.1.getD ((y + 1) * width + x) 0 = 0)
    (h1 : x + 1 < width → s.1.getD ((y + 1) * width + (x + 1)) 0 = 0) :
    (updateGfx width height rng s).1.getD (y * width + x) 0 = 0 := by
  have e : (y + 1) * width = y * width + width := by ring
  have e2 : (y + 2) * width = y * width + width + width := by ring
  have hm2 : (y + 2) * width ≤ (height - 1) * width :=
    Nat.mul_le_mul_right width (by omega)
  set t := seedRow width height rng s with ht
  have hseed : ∀ i, i < (height - 1) * width → t.1.getD i 0 = s.1.getD i 0 :=
    fun i hi => seedRow_getD_of_lt hi
  have htlen : t.1.length = width * height := seedRow_length.trans hlen
  have hrows : List.range (height - 1) =
      List.range (y + 1) ++
        (List.range (height - 1 - (y + 1))).map ((y + 1) + ·) := by
    rw [← List.range_add]
    congr 1
    omega
  unfold updateGfx
  rw [← ht, hrows, propRowsGfx_append, List.range_succ, propRowsGfx_append]
  set u := propRowsGfx width rng (List.range y) t with hu
  have huge : ∀ i, y * width ≤ i → u.1.getD i 0 = t.1.getD i 0 :=
    fun i hi => propRowsGfx_getD_of_ge
      (fun j hj => List.mem_range.mp hj) hi
  have hulen : u.1.length = width * height := propRowsGfx_length.trans htlen
  have hsu : propRowsGfx width rng [y] u = propRowGfx width rng y u := by
    simp [propRowsGfx]
  rw [hsu]
  have hrowzero : (propRowGfx width rng y u).1.getD (y * width + x) 0 = 0 := by
    refine propRowGfx_writes_zero hx ?_ ?_ ?_
    · rw [hulen, Nat.mul_comm width height]
      exact Nat.mul_le_mul_right width (by omega)
    · rw [huge _ (by omega), hseed _ (by omega)]
      exact h0
    · intro hxw
      rw [huge _ (by omega), hseed _ (by omega)]
      exact h1 hxw
  rw [propRowsGfx_getD_of_lt (y + 1) ?_ (by omega)]
  · exact hrowzero
  · intro j hj
    obtain ⟨j0, hj0, rfl⟩ := List.mem_map.mp hj
    omega

/-- Witness for C1 amended on a 1×4 grid with zero rows above the source:
`grid[2][0] = 0` before the call forces `grid[1][0] = 0` after it. -/
theorem extinguished_stays_amended_witness :
    (updateGfx 1 4 (fun _ => 0) ([3, 5, 0, 0], 0)).1.getD (1 * 1 + 0) 0 = 0 :=
  extinguished_stays_amended 1 4 1 0 (fun _ => 0) ([3, 5, 0, 0], 0)
    (by decide) (by decide) (by decide) (by decide) (by omega)

/-- Claim C4 counterexample: the in-place forward sweep does not read rows
already updated within the same call.  On a 1×3 grid `[0, 7, 0]` with a
never-sparking stream, the in-place sweep propagates the stale 7 of row 1
into row 0 (result `[6, 0, 0]`), whereas a sweep whose reads see
already-updated rows (rows processed bottom-up, `updateGfxUpdatedBelow`)
first clears row 1 from the zero source row and yields `[0, 0, 0]`. -/
theorem forward_sweep_counterexample :
    (updateGfx 1 3 (fun _ => 70) ([0, 7, 0], 0)).1 = [6, 0, 0] ∧
    (updateGfxUpdatedBelow 1 3 (fun _ => 70) ([0, 7, 0], 0)).1 = [0, 0, 0] ∧
    ([6, 0, 0] : List Nat) ≠ [0, 0, 0] := by
  exact ⟨by decide, by decide, by decide⟩

/-- Column-level equivalence of the in-place sweep of row `y` with the
snapshot-reading sweep: if the evolving buffer agrees with `snap` at or
above row `y+1`, the two folds coincide and the agreement persists. -/
theorem propColsGfx_eq_snap {width y : Nat} {rng : Nat → Nat}
    {snap : List Nat} (cols : List Nat)
    (hcols : ∀ c ∈ cols, c < width) :
    ∀ s : List Nat × Nat,
      (∀ i, (y + 1) * width ≤ i → s.1.getD i 0 = snap.getD i 0) →
      cols.foldl (propStepGfx width rng y) s =
        cols.foldl (propStepSnap width rng snap y) s ∧
      (∀ i, (y + 1) * width ≤ i →
        (cols.foldl (propStepGfx width rng y) s).1.getD i 0 =
          snap.getD i 0) := by
  induction cols with
  | nil => exact fun s hagree => ⟨rfl, hagree⟩
  | cons c cs ih =>
    intro s hagree
    have hc : c < width := hcols c (by simp)
    have hstep : propStepGfx width rng y s c =
        propStepSnap width rng snap y s c := by
      unfold propStepGfx propStepSnap
      rw [hagree ((y + 1) * width + c) (by omega)]
    have hagree2 : ∀ i, (y + 1) * width ≤ i →
        (propStepGfx width rng y s c).1.getD i 0 = snap.getD i 0 :=
      fun i hi => (propStepGfx_getD_outside hc (Or.inr hi)).trans (hagree i hi)
    obtain ⟨e1, e2⟩ := ih (fun d hd => hcols d (by simp [hd]))
      (propStepGfx width rng y s c) hagree2
    refine ⟨?_, e2⟩
    simp only [List.foldl_cons]
    rw [← hstep]
    exact e1

/-- Row-level: the in-place propagation over rows `0 .. n-1` equals the
snapshot propagation reading from the initial buffer, and leaves all
indices at or above `n * width` untouched. -/
theorem propRowsGfx_eq_snap (width : Nat) (rng : Nat → Nat)
    (t : List Nat × Nat) :
    ∀ n, propRowsGfx width rng (List.range n) t =
        (List.range n).foldl
          (fun u y =>
            (List.range width).foldl (propStepSnap width rng t.1 y) u) t ∧
      (∀ i, n * width ≤ i →
        (propRowsGfx width rng (List.range n) t).1.getD i 0 =
          t.1.getD i 0) := by
  intro n
  induction n with
  | zero => exact ⟨rfl, fun i _ => rfl⟩
  | succ n ih =>
    obtain ⟨ih1, ih2⟩ := ih
    have e : (n + 1) * width = n * width + width := by ring
    have hagree : ∀ i, (n + 1) * width ≤ i →
        (propRowsGfx width rng (List.range n) t).1.getD i 0 = t.1.getD i 0 :=
      fun i hi => ih2 i (by omega)
    obtain ⟨r1, r2⟩ := @propColsGfx_eq_snap width n rng t.1
      (List.range width) (fun c hc => List.mem_range.mp hc)
      (propRowsGfx width rng (List.range n) t) hagree
    constructor
    · rw [List.range_succ, propRowsGfx_append, List.foldl_append, ← ih1]
      show propRowsGfx width rng [n]
          (propRowsGfx width rng (List.range n) t) = _
      simp only [propRowsGfx, List.foldl_cons, List.foldl_nil]
      unfold propRowGfx
      exact r1
    · intro i hi
      rw [List.range_succ, propRowsGfx_append]
      rw [show propRowsGfx width rng [n]
            (propRowsGfx width rng (List.range n) t) =
          propRowGfx width rng n (propRowsGfx width rng (List.range n) t)
          from by simp [propRowsGfx]]
      rw [propRowGfx_getD_outside (Or.inr hi)]
      exact ih2 i (by omega)

/-- Claim C4 amended: within one call the in-place forward sweep reads the
*post-seed* state, not already-updated rows — each row `y` reads row `y+1`
as it stood after the seed phase (the previous frame's values when
`y + 1 < height - 1`; the source row freshly seeded this call when
`y = height - 2`): the in-place sweep is extensionally equal to
propagating every row from a snapshot taken right after the seed phase. -/
theorem forward_sweep_reads_post_seed (width height : Nat)
    (rng : Nat → Nat) (s : List Nat × Nat) :
    updateGfx width height rng s = updateGfxSnap width height rng s := by
  unfold updateGfx updateGfxSnap
  exact (propRowsGfx_eq_snap width rng (seedRow width height rng s)
    (height - 1)).1

end Fire
